import Mathlib

/-!
Shallow embedding of the `fear_of_sql` static SQL validation library.

The definitions below translate the pure fragments of the Python source:

* `_resolve.py` — `check_column`, `check_scalar`, `find_column`, `resolve`
  (the nullability merge over a Python dict, modelled as a prepend-on-insert
  association list whose lookup returns the most recent binding);
* `_render.py` — `render` over template literals;
* `_explain.py` — the plan-tree walk `_visit_plan` and the override list built
  by `collect_explain_nullability`;
* `_describe.py` — the alias-suffix parsing and the per-column OID-mapping
  loop of `describe`, together with the OID table of `_types.py`;
* `_validate.py` — the control flow of `collect_errors` (which database
  stages run, when the prepared statement is closed, what is raised), with
  the wire interactions abstracted as stage outcomes, producing an explicit
  event trace; and the per-query error handling of `FearOfSQL._validate`.

Stateful behaviour (exceptions, the mutable `nullables` vector, the event
trace of the pipeline) is rendered by explicit state passing; fallible code
returns `Option` or `Except`.
-/

namespace FearOfSql

/-- Host-language (Python) type tokens, as they appear in the type catalog
`PG_TYPES` of `_types.py`. `noneType` stands for Python's `type(None)`, the
null marker used by the checker. -/
inductive PyType where
  | noneType
  | pyBool
  | pyBytes
  | pyStr
  | pyInt
  | pyObject
  | pyFloat
  | pyDate
  | pyTime
  | pyDatetime
  | pyTimedelta
  | pyDecimal
  | pyUuid
  | pyListOf (t : PyType)
deriving DecidableEq, Repr

/-- Entry of the `PG_TYPES` table (`_types.py`, class `PgType`). -/
structure PgType where
  name : String
  python_type : PyType
deriving DecidableEq, Repr

/-- The OID table `PG_TYPES` of `_types.py`, as a lookup function
(`dict.get`): `none` models a lookup miss. -/
def PG_TYPES (oid : Nat) : Option PgType :=
  match oid with
  | 16 => some ⟨"bool", .pyBool⟩
  | 17 => some ⟨"bytea", .pyBytes⟩
  | 18 => some ⟨"char", .pyStr⟩
  | 19 => some ⟨"name", .pyStr⟩
  | 20 => some ⟨"int8", .pyInt⟩
  | 21 => some ⟨"int2", .pyInt⟩
  | 23 => some ⟨"int4", .pyInt⟩
  | 25 => some ⟨"text", .pyStr⟩
  | 26 => some ⟨"oid", .pyInt⟩
  | 114 => some ⟨"json", .pyObject⟩
  | 700 => some ⟨"float4", .pyFloat⟩
  | 701 => some ⟨"float8", .pyFloat⟩
  | 790 => some ⟨"money", .pyStr⟩
  | 1042 => some ⟨"bpchar", .pyStr⟩
  | 1043 => some ⟨"varchar", .pyStr⟩
  | 1082 => some ⟨"date", .pyDate⟩
  | 1083 => some ⟨"time", .pyTime⟩
  | 1114 => some ⟨"timestamp", .pyDatetime⟩
  | 1184 => some ⟨"timestamptz", .pyDatetime⟩
  | 1186 => some ⟨"interval", .pyTimedelta⟩
  | 1700 => some ⟨"numeric", .pyDecimal⟩
  | 2950 => some ⟨"uuid", .pyUuid⟩
  | 3802 => some ⟨"jsonb", .pyObject⟩
  | 199 => some ⟨"_json", .pyListOf .pyObject⟩
  | 791 => some ⟨"_money", .pyListOf .pyStr⟩
  | 1000 => some ⟨"_bool", .pyListOf .pyBool⟩
  | 1001 => some ⟨"_bytea", .pyListOf .pyBytes⟩
  | 1002 => some ⟨"_char", .pyListOf .pyStr⟩
  | 1003 => some ⟨"_name", .pyListOf .pyStr⟩
  | 1005 => some ⟨"_int2", .pyListOf .pyInt⟩
  | 1007 => some ⟨"_int4", .pyListOf .pyInt⟩
  | 1009 => some ⟨"_text", .pyListOf .pyStr⟩
  | 1014 => some ⟨"_bpchar", .pyListOf .pyStr⟩
  | 1015 => some ⟨"_varchar", .pyListOf .pyStr⟩
  | 1016 => some ⟨"_int8", .pyListOf .pyInt⟩
  | 1021 => some ⟨"_float4", .pyListOf .pyFloat⟩
  | 1022 => some ⟨"_float8", .pyListOf .pyFloat⟩
  | 1028 => some ⟨"_oid", .pyListOf .pyInt⟩
  | 1115 => some ⟨"_timestamp", .pyListOf .pyDatetime⟩
  | 1182 => some ⟨"_date", .pyListOf .pyDate⟩
  | 1183 => some ⟨"_time", .pyListOf .pyTime⟩
  | 1185 => some ⟨"_timestamptz", .pyListOf .pyDatetime⟩
  | 1187 => some ⟨"_interval", .pyListOf .pyTimedelta⟩
  | 1231 => some ⟨"_numeric", .pyListOf .pyDecimal⟩
  | 2951 => some ⟨"_uuid", .pyListOf .pyUuid⟩
  | 3807 => some ⟨"_jsonb", .pyListOf .pyObject⟩
  | _ => none

/-- Model of `_describe.py`, class `UnresolvedColumn`. -/
structure UnresolvedColumn where
  name : String
  python_type : PyType
deriving DecidableEq, Repr

/-- Model of `_describe.py`, class `ColumnOrigin`. -/
structure ColumnOrigin where
  name : String
  table_oid : Nat
  column_attrnum : Nat
deriving DecidableEq, Repr

/-- Model of `_describe.py`, class `NullabilityOverride`. -/
structure NullabilityOverride where
  name : String
  is_nullable : Bool
deriving DecidableEq, Repr

/-- Model of `_resolve.py`, class `Nullable`. -/
structure Nullable where
  name : String
  nullable : Bool
deriving DecidableEq, Repr

/-- Model of `_resolve.py`, class `ResolvedColumn`. -/
structure ResolvedColumn where
  name : String
  mapped_type : PyType
  nullable : Bool
deriving DecidableEq, Repr

/-- Model of `_resolve.py`, class `ExpectedColumn`. -/
structure ExpectedColumn where
  name : String
  allowed_types : List PyType
deriving DecidableEq, Repr

/-- Model of `_resolve.py`, class `ExpectedScalar`. -/
structure ExpectedScalar where
  allowed_types : List PyType
deriving DecidableEq, Repr

/-- The validation-error taxonomy of `_errors.py`, as a closed sum carrying
each variant's payload. -/
inductive ValidationError where
  | columnCountMismatch (expected : Nat) (actual : Nat)
  | columnNotFound (column : String)
  | typeMismatch (column : String) (expected : List PyType) (actual : PyType)
  | nullabilityError (column : String)
deriving DecidableEq, Repr

/-- Model of `_resolve.py`, `check_column`: append a `TypeMismatch` when the mapped
type is not allowed, then a `NullabilityError` when the column is nullable
and `type(None)` is not allowed. -/
def check_column (col : ResolvedColumn) (allowed_types : List PyType) :
    List ValidationError :=
  let errors : List ValidationError := []
  let errors :=
    if col.mapped_type ∉ allowed_types then
      errors ++ [.typeMismatch col.name allowed_types col.mapped_type]
    else errors
  let errors :=
    if col.nullable = true ∧ PyType.noneType ∉ allowed_types then
      errors ++ [.nullabilityError col.name]
    else errors
  errors

/-- Model of `_resolve.py`, `check_scalar`: a single count-mismatch error when the
resolved column count differs from 1, otherwise the per-column check of the
single column. -/
def check_scalar (resolved : List ResolvedColumn) (expected : ExpectedScalar) :
    List ValidationError :=
  if h : resolved.length = 1 then
    check_column (resolved.get ⟨0, by omega⟩) expected.allowed_types
  else
    [.columnCountMismatch 1 resolved.length]

/-- Model of `_resolve.py`, `find_column`: first resolved column bearing the name.
The Python function returns a `ColumnNotFoundError` value on a miss; here the
miss is `none` and the caller of the embedding produces the error. -/
def find_column (resolved : List ResolvedColumn) (name : String) :
    Option ResolvedColumn :=
  match resolved with
  | [] => none
  | col :: rest => if col.name = name then some col else find_column rest name

/-- Errors contributed by one expected field of a record shape: the body of
the `match` in `collect_errors` (`_validate.py` lines 162-167). -/
def field_errors (resolved : List ResolvedColumn) (exp : ExpectedColumn) :
    List ValidationError :=
  match find_column resolved exp.name with
  | none => [.columnNotFound exp.name]
  | some col => check_column col exp.allowed_types

/-- The record-shape loop of `collect_errors` (`_validate.py` lines 161-168):
errors accumulated over expected columns in declaration order. -/
def collect_record_errors (resolved : List ResolvedColumn)
    (expected : List ExpectedColumn) : List ValidationError :=
  expected.foldl (fun errs exp => errs ++ field_errors resolved exp) []

/-- Fatal (raised, never returned) errors of the pipeline:
`UnsupportedTypeError` from `_describe.py`, Python `KeyError` from the
`null_map` lookup in `resolve`, and database or internal errors surfaced by
the catalog and explain stages. -/
inductive FatalErr where
  | unsupportedType (type_oid : Nat) (column : String)
  | keyError (key : String)
  | dbError (msg : String)
deriving DecidableEq, Repr

/-- Lookup in the model of a Python dict: the dict is a list of bindings with
the most recent insert first, so `find?` returns the value of the last
assignment to the key. -/
def mapLookup (m : List (String × Bool)) (k : String) : Option Bool :=
  (m.find? (fun p => decide (p.1 = k))).map (fun p => p.2)

/-- The `null_map` construction of `resolve` (`_resolve.py` lines 133-137):
seed with catalog nullability, overlay explain overrides, overlay user
(query) overrides. Each assignment prepends a binding, so lookup sees the
latest write, exactly as for a Python dict. -/
def buildNullMap (catalog_nullability : List Nullable)
    (explain_overrides query_overrides : List NullabilityOverride) :
    List (String × Bool) :=
  let m := catalog_nullability.foldl
    (fun acc n => (n.name, n.nullable) :: acc) []
  let m := explain_overrides.foldl
    (fun acc o => (o.name, o.is_nullable) :: acc) m
  query_overrides.foldl (fun acc o => (o.name, o.is_nullable) :: acc) m

/-- The list comprehension of `resolve` (`_resolve.py` lines 139-146): build
one `ResolvedColumn` per input column, looking its display name up in the
null map; a missing key is Python's `KeyError`. -/
def resolveCols (m : List (String × Bool)) :
    List UnresolvedColumn → Except FatalErr (List ResolvedColumn)
  | [] => .ok []
  | c :: rest =>
    match mapLookup m c.name with
    | none => .error (.keyError c.name)
    | some b =>
      (resolveCols m rest).map
        (fun rs => ⟨c.name, c.python_type, b⟩ :: rs)

/-- Model of `_resolve.py`, `resolve`. -/
def resolve (cols : List UnresolvedColumn)
    (catalog_nullability : List Nullable)
    (explain_overrides query_overrides : List NullabilityOverride) :
    Except FatalErr (List ResolvedColumn) :=
  resolveCols (buildNullMap catalog_nullability explain_overrides query_overrides)
    cols

/-- Specification-side reading of the nullability merge: the value of the
LAST binding for a key in a list (Python dict overwrite semantics), used to
state the precedence theorem. -/
def lastWins {α : Type} (key : α → String) (val : α → Bool) (l : List α)
    (k : String) : Option Bool :=
  (l.reverse.find? (fun x => decide (key x = k))).map (fun x => val x)

/-- Specification-side precedence chain for a column name: user annotation
override, else explain override, else catalog base. -/
def precedence (catalog_nullability : List Nullable)
    (explain_overrides query_overrides : List NullabilityOverride)
    (k : String) : Option Bool :=
  match lastWins (fun o => o.name) (fun o => o.is_nullable) query_overrides k with
  | some b => some b
  | none =>
    match lastWins (fun o => o.name) (fun o => o.is_nullable) explain_overrides k with
    | some b => some b
    | none => lastWins (fun n => n.name) (fun n => n.nullable) catalog_nullability k

/-- One interpolated expression of a template literal (`Interpolation`):
only its `value` matters for rendering. -/
structure Interp (α : Type) where
  value : α
deriving DecidableEq, Repr

/-- A template literal (`string.templatelib.Template`): literal string parts
and interpolated expressions. -/
structure Template (α : Type) where
  strings : List String
  interpolations : List (Interp α)
deriving DecidableEq, Repr

/-- Model of `_render.py`, class `RenderedQuery`. -/
structure RenderedQuery (α : Type) where
  sql : String
  params : List α
deriving DecidableEq, Repr

/-- The loop of `render` (`_render.py` lines 14-19), with the enumeration
index threaded explicitly: after each literal part at index `i`, when an
interpolation with that index exists, emit the placeholder for position
`i + 1` and collect the interpolation's value. -/
def renderParts {α : Type} (strings : List String)
    (interpolations : List (Interp α)) (i : Nat) : List String × List α :=
  match strings with
  | [] => ([], [])
  | s :: rest =>
    let tail := renderParts rest interpolations (i + 1)
    if h : i < interpolations.length then
      (s :: ("$" ++ toString (i + 1)) :: tail.1,
        (interpolations.get ⟨i, h⟩).value :: tail.2)
    else
      (s :: tail.1, tail.2)

/-- Model of `_render.py`, `render`. -/
def render {α : Type} (template : Template α) : RenderedQuery α :=
  let pp := renderParts template.strings template.interpolations 0
  ⟨String.join pp.1, pp.2⟩

/-- Specification-side shape of the rendered SQL: the literal parts with
placeholders `$n`, `$(n+1)`, … inserted between consecutive parts, in
first-occurrence order. `specParts strings 1` is the claim's
`s₀ $1 s₁ $2 … $K s_K`. -/
def specParts (strings : List String) (n : Nat) : List String :=
  match strings with
  | [] => []
  | [s] => [s]
  | s :: rest => s :: ("$" ++ toString n) :: specParts rest (n + 1)

/-- Model of `_explain.py`, class `JoinType`. -/
inductive JoinType where
  | left
  | right
  | full
deriving DecidableEq, Repr

/-- Model of `_explain.py`, class `ParentRelation`. -/
inductive ParentRelation where
  | inner
  | outer
deriving DecidableEq, Repr

/-- Model of `_explain.py`, class `PlanNode`: a parsed EXPLAIN plan node. `none` in
the two tag fields models an absent or unrecognized raw value
(`JoinType.from_raw` / `ParentRelation.from_raw` returning `None`). -/
inductive PlanNode where
  | mk (join_type : Option JoinType) (parent_relation : Option ParentRelation)
      (output : List String) (children : List PlanNode)

/-- Join-type tag of a plan node. -/
def PlanNode.join_type : PlanNode → Option JoinType
  | .mk j _ _ _ => j

/-- Parent-relationship tag of a plan node. -/
def PlanNode.parent_relation : PlanNode → Option ParentRelation
  | .mk _ p _ _ => p

/-- Output column list of a plan node. -/
def PlanNode.output : PlanNode → List String
  | .mk _ _ o _ => o

/-- Child nodes of a plan node. -/
def PlanNode.children : PlanNode → List PlanNode
  | .mk _ _ _ c => c

/-- Python `list.index`: index of the first occurrence of an element
(meaningful when the element is present, which the caller guards). -/
def pyIndex : List String → String → Nat
  | [], _ => 0
  | x :: xs, c => if x = c then 0 else pyIndex xs c + 1

/-- The marking loop of `_visit_plan` (`_explain.py` lines 65-67): for every
column of the node's output that is also a root output, set the flag at the
first index of that column in `root_outputs`. -/
def markOutputs (output root_outputs : List String) (nullables : List Bool) :
    List Bool :=
  match output with
  | [] => nullables
  | col :: rest =>
    markOutputs rest root_outputs
      (if col ∈ root_outputs then nullables.set (pyIndex root_outputs col) true
       else nullables)

mutual

/-- Model of `_explain.py`, `_visit_plan`: mark this node's qualifying outputs (join
type Full, or parent relationship Inner), then recurse into children exactly
when the join type is Left or Right. The mutated `nullables` vector is
threaded as state. -/
def visitPlan (plan : PlanNode) (root_outputs : List String)
    (nullables : List Bool) : List Bool :=
  match plan with
  | .mk jt pr out ch =>
    let ns1 :=
      if jt = some JoinType.full ∨ pr = some ParentRelation.inner then
        markOutputs out root_outputs nullables
      else nullables
    if jt = some JoinType.left ∨ jt = some JoinType.right then
      visitChildren ch root_outputs ns1
    else ns1

/-- The `for child in plan.children` loop of `_visit_plan`. -/
def visitChildren (children : List PlanNode) (root_outputs : List String)
    (nullables : List Bool) : List Bool :=
  match children with
  | [] => nullables
  | c :: cs => visitChildren cs root_outputs (visitPlan c root_outputs nullables)

end

mutual

/-- Specification-side visited-output collection, following the claim's
visited-node rule: the walk visits the root; a visited node contributes its
output when its join type is Full or its parent relationship is Inner; the
children of a visited node are visited exactly when that node's join type is
Left or Right. -/
def visitedOutputs (plan : PlanNode) : List String :=
  match plan with
  | .mk jt pr out ch =>
    (if jt = some JoinType.full ∨ pr = some ParentRelation.inner then out
     else []) ++
    (if jt = some JoinType.left ∨ jt = some JoinType.right then
      visitedOutputsList ch
     else [])

/-- Visited outputs of a list of sibling nodes. -/
def visitedOutputsList (children : List PlanNode) : List String :=
  match children with
  | [] => []
  | c :: cs => visitedOutputs c ++ visitedOutputsList cs

end

/-- The override list built by `collect_explain_nullability`
(`_explain.py` lines 108-115): one `(name, is_nullable=True)` record per
enumerated flag that is set. -/
def explainOverrides (cols : List UnresolvedColumn) (nullables : List Bool) :
    List NullabilityOverride :=
  nullables.enum.filterMap
    (fun p =>
      if p.2 then (cols.get? p.1).map (fun c => ⟨c.name, true⟩)
      else none)

/-- Model of `_describe.py`, `_parse_column_name_nullability_override`: strip a
trailing `!` (forcing non-nullable) or `?` (forcing nullable) from a raw
column alias. The Python `endswith` / `[:-1]` pair is modelled on the
string's character list: a one-character suffix test is a test on the last
character, and `[:-1]` drops it. -/
def parse_column_name_nullability_override (raw_name : String) :
    String × Option Bool :=
  match raw_name.data.getLast? with
  | some '!' => (⟨raw_name.data.dropLast⟩, some false)
  | some '?' => (⟨raw_name.data.dropLast⟩, some true)
  | _ => (raw_name, none)

/-- Raw per-column metadata read back from the server-side PREPARE
(`prepared_statement.cols` entries). -/
structure RawCol where
  name : String
  type_oid : Nat
  table_oid : Nat
  column_attrnum : Nat
deriving DecidableEq, Repr

/-- The `for col in cols` loop of `describe` (`_describe.py` lines 85-95):
parse the alias suffix, map the type OID through `PG_TYPES` (raising
`UnsupportedTypeError` on a miss, which aborts the whole loop), and
accumulate unresolved columns, origins, and user overrides in order. -/
def describeLoop :
    List RawCol →
    Except FatalErr
      (List UnresolvedColumn × List ColumnOrigin × List NullabilityOverride)
  | [] => .ok ([], [], [])
  | col :: rest =>
    let parsed := parse_column_name_nullability_override col.name
    match PG_TYPES col.type_oid with
    | none => .error (.unsupportedType col.type_oid parsed.1)
    | some pg =>
      (describeLoop rest).map
        (fun r =>
          (⟨parsed.1, pg.python_type⟩ :: r.1,
            ⟨parsed.1, col.table_oid, col.column_attrnum⟩ :: r.2.1,
            (match parsed.2 with
             | none => r.2.2
             | some b => ⟨parsed.1, b⟩ :: r.2.2)))

/-- Outcome of `describe` after a successful `conn.prepare`:
`prepared_statement.cols` is `None` for statements without result columns
(empty lists are returned), otherwise the per-column loop runs. -/
def describeOutcome (cols : Option (List RawCol)) :
    Except FatalErr
      (List UnresolvedColumn × List ColumnOrigin × List NullabilityOverride) :=
  match cols with
  | none => .ok ([], [], [])
  | some cs => describeLoop cs

/-- Declared result shape, after expectation extraction: either a scalar
expectation or a record's list of expected columns. -/
inductive ExpectedShape where
  | scalar (expected : ExpectedScalar)
  | record (expected : List ExpectedColumn)
deriving DecidableEq, Repr

/-- Database-interaction events of one `collect_errors` run, at stage
granularity: the server-side PREPARE issued by `describe`, entry into the
`pg_attribute` catalog-lookup stage, entry into the EXPLAIN stage, and the
`prepared_stmt.close()` call. -/
inductive DbEvent where
  | prepare
  | catalogLookup
  | explainQuery
  | closeStmt
deriving DecidableEq, Repr

/-- Control flow of `collect_errors` (`_validate.py` lines 127-168), with the
PREPARE assumed successful (the run is parameterized by what the server
reported: the raw columns, and the outcomes of the catalog and explain
stages, each of which may raise). Returns the ordered trace of database
events together with the outcome: a raised fatal error or the returned
validation-error list. Mirrored structure: `describe`; early return closing
the statement when no result type is declared; a `try` block around catalog
and explain whose `finally` closes the statement; then `resolve` and the
shape check, which run after the close. -/
def collect_errors_model (cols : Option (List RawCol))
    (result_type : Option ExpectedShape)
    (catalog_outcome : Except FatalErr (List Nullable))
    (explain_outcome : Except FatalErr (List NullabilityOverride)) :
    List DbEvent × Except FatalErr (List ValidationError) :=
  match describeOutcome cols with
  | .error e => ([.prepare], .error e)
  | .ok (unresolved, _origins, query_overrides) =>
    match result_type with
    | none => ([.prepare, .closeStmt], .ok [])
    | some shape =>
      match catalog_outcome with
      | .error e => ([.prepare, .catalogLookup, .closeStmt], .error e)
      | .ok catalog_nullability =>
        match explain_outcome with
        | .error e =>
          ([.prepare, .catalogLookup, .explainQuery, .closeStmt], .error e)
        | .ok explain_nullability =>
          let trace :=
            [DbEvent.prepare, .catalogLookup, .explainQuery, .closeStmt]
          match resolve unresolved catalog_nullability explain_nullability
              query_overrides with
          | .error e => (trace, .error e)
          | .ok resolved =>
            match shape with
            | .scalar expected => (trace, .ok (check_scalar resolved expected))
            | .record expected =>
              (trace, .ok (collect_record_errors resolved expected))

/-- Log events emitted by `FearOfSQL._validate`: one warning line per logged
validation error, one info line per validated query. -/
inductive LogEvent where
  | warn (fnName : String) (err : ValidationError)
  | info (fnName : String)
deriving DecidableEq, Repr

/-- A validation error raised by the registry layer, after
`error.query_name` and `error.sql` have been attached. -/
structure RaisedError where
  err : ValidationError
  query_name : String
  sql : String
deriving DecidableEq, Repr

/-- Per-query error handling of `FearOfSQL._validate` (`_validate.py` lines
108-123): the `for error in collect_errors(...)` loop logs a warning,
attaches the function name and SQL, and raises — so it runs at most one
iteration; when the list is empty the loop body never runs and the success
info line is logged. Returns the log-event list and the raised error, if
any. -/
def validate_query_errors (fnName sql : String)
    (errors : List ValidationError) : List LogEvent × Option RaisedError :=
  match errors with
  | [] => ([.info fnName], none)
  | e :: _ => ([.warn fnName e], some ⟨e, fnName, sql⟩)

/-! ## Helper lemmas -/

theorem foldl_append_eq_flatMap {α β : Type} (g : α → List β) (l : List α)
    (init : List β) :
    l.foldl (fun acc x => acc ++ g x) init = init ++ l.flatMap g := by
  induction l generalizing init with
  | nil => simp
  | cons x xs ih => simp [ih, List.append_assoc]

theorem flatMap_congr_mem {α β : Type} {f g : α → List β} {l : List α}
    (h : ∀ x ∈ l, f x = g x) : l.flatMap f = l.flatMap g := by
  induction l with
  | nil => rfl
  | cons x xs ih =>
    simp only [List.flatMap_cons]
    rw [h x (by simp), ih (fun y hy => h y (by simp [hy]))]

theorem find_column_eq_none {resolved : List ResolvedColumn} {name : String}
    (h : name ∉ resolved.map ResolvedColumn.name) :
    find_column resolved name = none := by
  induction resolved with
  | nil => rfl
  | cons col rest ih =>
    simp only [List.map_cons, List.mem_cons] at h
    push_neg at h
    rw [find_column, if_neg (fun hc => h.1 hc.symm), ih h.2]

theorem find_column_filter (resolved : List ResolvedColumn)
    (names : List String) (n : String) (hn : n ∈ names) :
    find_column (resolved.filter (fun c => decide (c.name ∈ names))) n =
      find_column resolved n := by
  induction resolved with
  | nil => rfl
  | cons col rest ih =>
    by_cases hmem : col.name ∈ names
    · simp only [List.filter_cons, hmem, decide_True, if_true, find_column]
      by_cases hcn : col.name = n
      · rw [if_pos hcn, if_pos hcn]
      · rw [if_neg hcn, if_neg hcn, ih]
    · have hcn : col.name ≠ n := fun hc => hmem (hc ▸ hn)
      have hdec : decide (col.name ∈ names) = false := by
        simp [hmem]
      simp only [List.filter_cons, hdec, Bool.false_eq_true, if_false]
      rw [find_column, if_neg hcn, ih]

/-! ## Claim theorems: the checker -/

/-- C2: for a scalar expected shape, a resolved-column count different from
1 yields exactly one `ColumnCountMismatch` with `expected = 1` and
`actual = N`, with no per-column checks; a count of exactly 1 yields exactly
the per-column check result of the single column. -/
theorem check_scalar_spec (resolved : List ResolvedColumn)
    (expected : ExpectedScalar) :
    (resolved.length ≠ 1 →
      check_scalar resolved expected =
        [.columnCountMismatch 1 resolved.length])
    ∧ (∀ c, resolved = [c] →
      check_scalar resolved expected = check_column c expected.allowed_types) := by
  constructor
  · intro h
    rw [check_scalar, dif_neg h]
  · rintro c rfl
    rfl

/-- Witness for C2: two resolved columns against a scalar shape give exactly
one count-mismatch error. -/
theorem check_scalar_spec_witness :
    ([(⟨"a", PyType.pyInt, false⟩ : ResolvedColumn),
      ⟨"b", PyType.pyStr, false⟩] : List ResolvedColumn).length ≠ 1
    ∧ check_scalar [⟨"a", PyType.pyInt, false⟩, ⟨"b", PyType.pyStr, false⟩]
        ⟨[PyType.pyInt]⟩ =
      [.columnCountMismatch 1 2] :=
  ⟨by decide,
    (check_scalar_spec
      [⟨"a", PyType.pyInt, false⟩, ⟨"b", PyType.pyStr, false⟩]
      ⟨[PyType.pyInt]⟩).1 (by decide)⟩

/-- C3: per-column checking emits a `TypeMismatch` iff the mapped type is
not allowed, emits a `NullabilityError` iff the column is nullable and the
null marker is absent from the allowed set, and when both occur the type
mismatch precedes the nullability error. -/
theorem check_column_spec (col : ResolvedColumn) (allowed : List PyType) :
    (ValidationError.typeMismatch col.name allowed col.mapped_type ∈
        check_column col allowed ↔ col.mapped_type ∉ allowed)
    ∧ (ValidationError.nullabilityError col.name ∈ check_column col allowed ↔
        (col.nullable = true ∧ PyType.noneType ∉ allowed))
    ∧ (col.mapped_type ∉ allowed → col.nullable = true →
        PyType.noneType ∉ allowed →
        check_column col allowed =
          [.typeMismatch col.name allowed col.mapped_type,
            .nullabilityError col.name]) := by
  simp only [check_column]
  split_ifs with h1 h2 h2 <;> simp_all

/-- Witness for C3: a nullable `int` column against a non-null `str`
expectation produces a type mismatch followed by a nullability error. -/
theorem check_column_spec_witness :
    ((⟨"c", PyType.pyInt, true⟩ : ResolvedColumn).mapped_type ∉
      ([PyType.pyStr] : List PyType))
    ∧ check_column ⟨"c", PyType.pyInt, true⟩ [PyType.pyStr] =
      [.typeMismatch "c" [PyType.pyStr] PyType.pyInt,
        .nullabilityError "c"] :=
  ⟨by decide,
    (check_column_spec ⟨"c", PyType.pyInt, true⟩ [PyType.pyStr]).2.2
      (by decide) rfl (by decide)⟩

/-- C5: record checking walks the expected columns in declaration order,
matching by name; a missing name contributes exactly one `ColumnNotFound`
and nothing else for that field; resolved columns whose names appear in no
expected column never contribute any error (dropping them leaves the result
unchanged). -/
theorem record_check_spec :
    (∀ (resolved : List ResolvedColumn) (expected : List ExpectedColumn),
      collect_record_errors resolved expected =
        expected.flatMap (field_errors resolved))
    ∧ (∀ (resolved : List ResolvedColumn) (exp : ExpectedColumn),
        exp.name ∉ resolved.map ResolvedColumn.name →
        field_errors resolved exp = [.columnNotFound exp.name])
    ∧ (∀ (resolved : List ResolvedColumn) (expected : List ExpectedColumn),
        collect_record_errors
          (resolved.filter
            (fun c => decide (c.name ∈ expected.map ExpectedColumn.name)))
          expected =
        collect_record_errors resolved expected) := by
  have hflat : ∀ (resolved : List ResolvedColumn)
      (expected : List ExpectedColumn),
      collect_record_errors resolved expected =
        expected.flatMap (field_errors resolved) := by
    intro resolved expected
    rw [collect_record_errors, foldl_append_eq_flatMap, List.nil_append]
  refine ⟨hflat, ?_, ?_⟩
  · intro resolved exp h
    rw [field_errors, find_column_eq_none h]
  · intro resolved expected
    rw [hflat, hflat]
    refine flatMap_congr_mem (fun exp hexp => ?_)
    rw [field_errors, field_errors,
      find_column_filter resolved (expected.map ExpectedColumn.name) exp.name
        (List.mem_map_of_mem ExpectedColumn.name hexp)]

/-- Witness for C5: an expected column whose name matches no resolved column
contributes exactly one `ColumnNotFound`. -/
theorem record_check_spec_witness :
    (("back" : String) ∉
      ([(⟨"front", PyType.pyStr, false⟩ : ResolvedColumn)] :
        List ResolvedColumn).map ResolvedColumn.name)
    ∧ field_errors [⟨"front", PyType.pyStr, false⟩]
        ⟨"back", [PyType.pyStr]⟩ =
      [.columnNotFound "back"] :=
  ⟨by decide,
    record_check_spec.2.1 [⟨"front", PyType.pyStr, false⟩]
      ⟨"back", [PyType.pyStr]⟩ (by decide)⟩

/-! ## Resolver lemmas -/

theorem mapLookup_override_foldl (l : List NullabilityOverride)
    (m : List (String × Bool)) (k : String) :
    mapLookup (l.foldl (fun acc o => (o.name, o.is_nullable) :: acc) m) k =
      match lastWins (fun o => o.name) (fun o => o.is_nullable) l k with
      | some b => some b
      | none => mapLookup m k := by
  induction l generalizing m with
  | nil => simp [lastWins]
  | cons x xs ih =>
    rw [List.foldl_cons, ih]
    simp only [lastWins, List.reverse_cons, List.find?_append]
    cases hfind : xs.reverse.find? (fun y => decide (y.name = k)) with
    | some y => simp [lastWins, hfind, Option.or]
    | none =>
      simp only [lastWins, hfind, Option.or]
      by_cases hk : x.name = k
      · simp [mapLookup, List.find?, hk]
      · simp [mapLookup, List.find?, hk]

theorem mapLookup_nullable_foldl (l : List Nullable)
    (m : List (String × Bool)) (k : String) :
    mapLookup (l.foldl (fun acc n => (n.name, n.nullable) :: acc) m) k =
      match lastWins (fun n => n.name) (fun n => n.nullable) l k with
      | some b => some b
      | none => mapLookup m k := by
  induction l generalizing m with
  | nil => simp [lastWins]
  | cons x xs ih =>
    rw [List.foldl_cons, ih]
    simp only [lastWins, List.reverse_cons, List.find?_append]
    cases hfind : xs.reverse.find? (fun y => decide (y.name = k)) with
    | some y => simp [lastWins, hfind, Option.or]
    | none =>
      simp only [lastWins, hfind, Option.or]
      by_cases hk : x.name = k
      · simp [mapLookup, List.find?, hk]
      · simp [mapLookup, List.find?, hk]

theorem mapLookup_buildNullMap (catalog_nullability : List Nullable)
    (explain_overrides query_overrides : List NullabilityOverride)
    (k : String) :
    mapLookup (buildNullMap catalog_nullability explain_overrides
        query_overrides) k =
      precedence catalog_nullability explain_overrides query_overrides k := by
  rw [buildNullMap, precedence, mapLookup_override_foldl,
    mapLookup_override_foldl, mapLookup_nullable_foldl]
  cases lastWins (fun o => o.name) (fun o => o.is_nullable) query_overrides k with
  | some b => rfl
  | none =>
    cases lastWins (fun o => o.name) (fun o => o.is_nullable)
        explain_overrides k with
    | some b => rfl
    | none =>
      cases lastWins (fun n => n.name) (fun n => n.nullable)
          catalog_nullability k with
      | some b => rfl
      | none => rfl

theorem resolveCols_ok_spec (m : List (String × Bool))
    (cols : List UnresolvedColumn) (res : List ResolvedColumn)
    (h : resolveCols m cols = .ok res) :
    res.length = cols.length ∧
    ∀ i (hi : i < cols.length) (hr : i < res.length),
      (res.get ⟨i, hr⟩).name = (cols.get ⟨i, hi⟩).name ∧
      (res.get ⟨i, hr⟩).mapped_type = (cols.get ⟨i, hi⟩).python_type ∧
      mapLookup m (cols.get ⟨i, hi⟩).name = some (res.get ⟨i, hr⟩).nullable := by
  induction cols generalizing res with
  | nil =>
    rw [resolveCols] at h
    cases h
    exact ⟨rfl, fun i hi => absurd hi (by simp)⟩
  | cons c cs ih =>
    rw [resolveCols] at h
    cases hlk : mapLookup m c.name with
    | none => rw [hlk] at h; cases h
    | some b =>
      rw [hlk] at h
      cases hrest : resolveCols m cs with
      | error e => rw [hrest] at h; cases h
      | ok rs =>
        rw [hrest] at h
        cases h
        obtain ⟨hlen, hall⟩ := ih rs hrest
        refine ⟨by simp [hlen], ?_⟩
        intro i hi hr
        cases i with
        | zero => exact ⟨rfl, rfl, hlk⟩
        | succ j =>
          exact hall j (by simpa using hi) (by simpa using hr)

/-! ## Claim theorems: the resolver -/

/-- C1: the final nullability of each resolved column follows the precedence
chain user-annotation override, then explain override, then catalog base
(each layer read with last-assignment-wins dict semantics), so a user
override — `!` recorded as `false`, `?` recorded as `true` — always
determines the output; and the overrides produced by the explain walk only
ever set `is_nullable = true`. -/
theorem resolve_precedence_spec :
    (∀ (cols : List UnresolvedColumn) (catalog_nullability : List Nullable)
        (explain_overrides query_overrides : List NullabilityOverride)
        (res : List ResolvedColumn),
      resolve cols catalog_nullability explain_overrides query_overrides =
        .ok res →
      ∀ i (hi : i < cols.length) (hr : i < res.length),
        precedence catalog_nullability explain_overrides query_overrides
            (cols.get ⟨i, hi⟩).name = some (res.get ⟨i, hr⟩).nullable
        ∧ (∀ b,
            lastWins (fun o => o.name) (fun o => o.is_nullable)
              query_overrides (cols.get ⟨i, hi⟩).name = some b →
            (res.get ⟨i, hr⟩).nullable = b))
    ∧ (∀ (cols : List UnresolvedColumn) (nullables : List Bool)
        (o : NullabilityOverride),
        o ∈ explainOverrides cols nullables → o.is_nullable = true) := by
  constructor
  · intro cols catalog_nullability explain_overrides query_overrides res h
    intro i hi hr
    obtain ⟨-, hall⟩ := resolveCols_ok_spec _ cols res h
    obtain ⟨-, -, hlk⟩ := hall i hi hr
    rw [mapLookup_buildNullMap] at hlk
    refine ⟨hlk, fun b hb => ?_⟩
    rw [precedence, hb] at hlk
    cases hlk
    rfl
  · intro cols nullables o ho
    rw [explainOverrides] at ho
    rw [List.mem_filterMap] at ho
    obtain ⟨p, -, hp⟩ := ho
    by_cases h2 : p.2
    · rw [if_pos h2] at hp
      cases hg : cols.get? p.1 with
      | none => rw [hg] at hp; cases hp
      | some c => rw [hg] at hp; cases hp; rfl
    · rw [if_neg h2] at hp; cases hp

/-- Witness for C1: a user `!` override (recorded as `false`) beats an
explain override (`true`) and the catalog base (`false`). -/
theorem resolve_precedence_spec_witness :
    resolve [⟨"a", PyType.pyInt⟩] [⟨"a", false⟩] [⟨"a", true⟩]
        [⟨"a", false⟩] =
      Except.ok [⟨"a", PyType.pyInt, false⟩]
    ∧ precedence [⟨"a", false⟩] [⟨"a", true⟩] [⟨"a", false⟩] "a" =
        some false := by
  refine ⟨rfl, ?_⟩
  have h :=
    (resolve_precedence_spec.1 [⟨"a", PyType.pyInt⟩] [⟨"a", false⟩]
      [⟨"a", true⟩] [⟨"a", false⟩] [⟨"a", PyType.pyInt, false⟩] rfl
      0 (by decide) (by decide)).1
  exact h

/-- C10: resolving returns exactly one column per input, in order, with the
same name and mapped type, and the final nullability is a function of the
display name alone — equal names receive equal nullability. -/
theorem resolve_shape_spec (cols : List UnresolvedColumn)
    (catalog_nullability : List Nullable)
    (explain_overrides query_overrides : List NullabilityOverride)
    (res : List ResolvedColumn)
    (h : resolve cols catalog_nullability explain_overrides query_overrides =
      .ok res) :
    res.length = cols.length
    ∧ (∀ i (hi : i < cols.length) (hr : i < res.length),
        (res.get ⟨i, hr⟩).name = (cols.get ⟨i, hi⟩).name ∧
        (res.get ⟨i, hr⟩).mapped_type = (cols.get ⟨i, hi⟩).python_type)
    ∧ (∀ i j (hi : i < cols.length) (hj : j < cols.length)
        (hri : i < res.length) (hrj : j < res.length),
        (cols.get ⟨i, hi⟩).name = (cols.get ⟨j, hj⟩).name →
        (res.get ⟨i, hri⟩).nullable = (res.get ⟨j, hrj⟩).nullable) := by
  obtain ⟨hlen, hall⟩ := resolveCols_ok_spec _ cols res h
  refine ⟨hlen, fun i hi hr => ⟨(hall i hi hr).1, (hall i hi hr).2.1⟩, ?_⟩
  intro i j hi hj hri hrj hname
  obtain ⟨-, -, hlki⟩ := hall i hi hri
  obtain ⟨-, -, hlkj⟩ := hall j hj hrj
  rw [hname, hlkj] at hlki
  injection hlki with h2
  exact h2.symm

/-- Witness for C10: two input columns sharing the display name `a` resolve
in order, keeping names and types, with identical nullability. -/
theorem resolve_shape_spec_witness :
    resolve [⟨"a", PyType.pyInt⟩, ⟨"a", PyType.pyStr⟩] [⟨"a", true⟩] [] [] =
      Except.ok [⟨"a", PyType.pyInt, true⟩, ⟨"a", PyType.pyStr, true⟩]
    ∧ ([⟨"a", PyType.pyInt, true⟩, ⟨"a", PyType.pyStr, true⟩] :
        List ResolvedColumn).length =
      ([⟨"a", PyType.pyInt⟩, ⟨"a", PyType.pyStr⟩] :
        List UnresolvedColumn).length := by
  refine ⟨rfl, ?_⟩
  exact (resolve_shape_spec [⟨"a", PyType.pyInt⟩, ⟨"a", PyType.pyStr⟩]
    [⟨"a", true⟩] [] [] [⟨"a", PyType.pyInt, true⟩, ⟨"a", PyType.pyStr, true⟩]
    rfl).1

/-! ## Render lemmas -/

theorem renderParts_eq {α : Type} (strings : List String)
    (interpolations : List (Interp α)) (i : Nat)
    (h : strings.length + i = interpolations.length + 1) :
    renderParts strings interpolations i =
      (specParts strings (i + 1),
        (interpolations.drop i).map (fun x => x.value)) := by
  induction strings generalizing i with
  | nil =>
    rw [renderParts, specParts, List.drop_eq_nil_of_le (by simp at h; omega)]
    rfl
  | cons s rest ih =>
    cases rest with
    | nil =>
      have hi : i = interpolations.length := by
        simp at h
        omega
      have hnot : ¬ i < interpolations.length := by omega
      rw [renderParts, dif_neg hnot, renderParts]
      rw [List.drop_eq_nil_of_le (by omega)]
      rfl
    | cons s2 rest2 =>
      have hi : i < interpolations.length := by
        simp at h
        omega
      have hrec := ih (i + 1) (by simp at h ⊢; omega)
      rw [renderParts, dif_pos hi, hrec]
      rw [List.drop_eq_getElem_cons hi, List.map_cons]
      rfl

/-! ## Claim theorem: template rendering -/

/-- C6: rendering a template with `K` interpolations yields the literal
parts with placeholders for positions 1 through `K` inserted between them in
first-occurrence order, and a parameter list of length exactly `K` holding
the interpolated values in that order; the SQL text depends only on the
literal parts and `K`, never on the interpolated values. -/
theorem render_spec {α : Type} (t : Template α)
    (h : t.strings.length = t.interpolations.length + 1) :
    (render t).params = t.interpolations.map (fun x => x.value)
    ∧ (render t).params.length = t.interpolations.length
    ∧ (render t).sql = String.join (specParts t.strings 1)
    ∧ (∀ t2 : Template α, t2.strings = t.strings →
        t2.interpolations.length = t.interpolations.length →
        (render t2).sql = (render t).sql) := by
  have hr := renderParts_eq t.strings t.interpolations 0 (by omega)
  refine ⟨?_, ?_, ?_, ?_⟩
  · rw [render, hr]
    simp
  · rw [render, hr]
    simp
  · rw [render, hr]
  · intro t2 hs hlen
    have hr2 := renderParts_eq t2.strings t2.interpolations 0
      (by rw [hs, hlen]; omega)
    rw [render, render, hr, hr2, hs]

/-- Witness for C6: a template with two interpolations renders to
`SELECT $1 + $2` with the two values as parameters, in order. -/
theorem render_spec_witness :
    (["SELECT ", " + ", ""] : List String).length =
      ([⟨5⟩, ⟨7⟩] : List (Interp Nat)).length + 1
    ∧ (render (⟨["SELECT ", " + ", ""], [⟨5⟩, ⟨7⟩]⟩ : Template Nat)).params =
        [5, 7]
    ∧ (render (⟨["SELECT ", " + ", ""], [⟨5⟩, ⟨7⟩]⟩ : Template Nat)).sql =
        "SELECT $1 + $2" := by
  have h :=
    render_spec (⟨["SELECT ", " + ", ""], [⟨5⟩, ⟨7⟩]⟩ : Template Nat)
      (by decide)
  exact ⟨by decide, h.1, by rw [h.2.2.1]; rfl⟩

/-! ## Explain-walk lemmas -/

theorem pyIndex_lt_length {l : List String} {c : String} (h : c ∈ l) :
    pyIndex l c < l.length := by
  induction l with
  | nil => cases h
  | cons x xs ih =>
    by_cases hx : x = c
    · simp [pyIndex, hx]
    · have hm : c ∈ xs := by
        rcases List.mem_cons.mp h with h1 | h1
        · exact absurd h1.symm hx
        · exact h1
      rw [pyIndex, if_neg hx]
      simpa using ih hm

theorem getElem?_pyIndex {l : List String} {c : String} (h : c ∈ l) :
    l[pyIndex l c]? = some c := by
  induction l with
  | nil => cases h
  | cons x xs ih =>
    by_cases hx : x = c
    · simp [pyIndex, hx]
    · have hm : c ∈ xs := by
        rcases List.mem_cons.mp h with h1 | h1
        · exact absurd h1.symm hx
        · exact h1
      rw [pyIndex, if_neg hx]
      simpa using ih hm

theorem markOutputs_length (out root_outputs : List String) (ns : List Bool) :
    (markOutputs out root_outputs ns).length = ns.length := by
  induction out generalizing ns with
  | nil => rfl
  | cons c cs ih =>
    rw [markOutputs]
    by_cases hc : c ∈ root_outputs
    · rw [if_pos hc, ih, List.length_set]
    · rw [if_neg hc, ih]

theorem getElem?_markOutputs (out root_outputs : List String)
    (ns : List Bool) (i : Nat) (hlen : ns.length = root_outputs.length) :
    ((markOutputs out root_outputs ns)[i]? = some true ↔
      ns[i]? = some true ∨
        ∃ c ∈ out, c ∈ root_outputs ∧ pyIndex root_outputs c = i) := by
  induction out generalizing ns with
  | nil => simp [markOutputs]
  | cons c cs ih =>
    rw [markOutputs]
    by_cases hc : c ∈ root_outputs
    · rw [if_pos hc]
      have hset : (ns.set (pyIndex root_outputs c) true).length =
          root_outputs.length := by
        rw [List.length_set]; exact hlen
      have ihs := ih (ns.set (pyIndex root_outputs c) true) hset
      rw [ihs]
      have hstep : (ns.set (pyIndex root_outputs c) true)[i]? = some true ↔
          ns[i]? = some true ∨ pyIndex root_outputs c = i := by
        rw [List.getElem?_set]
        by_cases hij : pyIndex root_outputs c = i
        · rw [if_pos hij, if_pos (hlen ▸ pyIndex_lt_length hc)]
          simp [hij]
        · rw [if_neg hij]
          simp [hij]
      rw [hstep, List.exists_mem_cons_iff]
      tauto
    · rw [if_neg hc]
      have ihs := ih ns hlen
      rw [ihs, List.exists_mem_cons_iff]
      have : ¬ (c ∈ root_outputs ∧ pyIndex root_outputs c = i) := by
        intro hk
        exact hc hk.1
      tauto

mutual

theorem getElem?_visitPlan (plan : PlanNode) (root_outputs : List String)
    (ns : List Bool) (i : Nat) (hlen : ns.length = root_outputs.length) :
    (visitPlan plan root_outputs ns).length = ns.length ∧
    ((visitPlan plan root_outputs ns)[i]? = some true ↔
      ns[i]? = some true ∨
        ∃ c ∈ visitedOutputs plan, c ∈ root_outputs ∧
          pyIndex root_outputs c = i) := by
  cases plan with
  | mk jt pr out ch =>
    rw [visitPlan, visitedOutputs]
    by_cases hq : jt = some JoinType.full ∨ pr = some ParentRelation.inner
    · rw [if_pos hq, if_pos hq]
      by_cases hd : jt = some JoinType.left ∨ jt = some JoinType.right
      · rw [if_pos hd, if_pos hd]
        have hm := markOutputs_length out root_outputs ns
        obtain ⟨hl, hiff⟩ := getElem?_visitChildren ch root_outputs
          (markOutputs out root_outputs ns) i (by rw [hm]; exact hlen)
        refine ⟨by rw [hl, hm], ?_⟩
        rw [hiff, getElem?_markOutputs out root_outputs ns i hlen]
        constructor
        · rintro ((h | h) | ⟨c, hcv, hcr, hci⟩)
          · exact Or.inl h
          · obtain ⟨c, hco, hcr, hci⟩ := h
            exact Or.inr ⟨c, by simp [hco], hcr, hci⟩
          · exact Or.inr ⟨c, by simp [hcv], hcr, hci⟩
        · rintro (h | ⟨c, hcv, hcr, hci⟩)
          · exact Or.inl (Or.inl h)
          · rw [List.mem_append] at hcv
            rcases hcv with hcv | hcv
            · exact Or.inl (Or.inr ⟨c, hcv, hcr, hci⟩)
            · exact Or.inr ⟨c, hcv, hcr, hci⟩
      · rw [if_neg hd, if_neg hd]
        refine ⟨markOutputs_length out root_outputs ns, ?_⟩
        rw [getElem?_markOutputs out root_outputs ns i hlen]
        simp
    · rw [if_neg hq, if_neg hq]
      by_cases hd : jt = some JoinType.left ∨ jt = some JoinType.right
      · rw [if_pos hd, if_pos hd]
        obtain ⟨hl, hiff⟩ := getElem?_visitChildren ch root_outputs ns i hlen
        refine ⟨hl, ?_⟩
        rw [hiff]
        simp
      · rw [if_neg hd, if_neg hd]
        simp

theorem getElem?_visitChildren (children : List PlanNode)
    (root_outputs : List String) (ns : List Bool) (i : Nat)
    (hlen : ns.length = root_outputs.length) :
    (visitChildren children root_outputs ns).length = ns.length ∧
    ((visitChildren children root_outputs ns)[i]? = some true ↔
      ns[i]? = some true ∨
        ∃ c ∈ visitedOutputsList children, c ∈ root_outputs ∧
          pyIndex root_outputs c = i) := by
  cases children with
  | nil =>
    rw [visitChildren, visitedOutputsList]
    simp
  | cons c cs =>
    rw [visitChildren, visitedOutputsList]
    obtain ⟨hl1, hiff1⟩ := getElem?_visitPlan c root_outputs ns i hlen
    obtain ⟨hl2, hiff2⟩ := getElem?_visitChildren cs root_outputs
      (visitPlan c root_outputs ns) i (by rw [hl1]; exact hlen)
    refine ⟨by rw [hl2, hl1], ?_⟩
    rw [hiff2, hiff1]
    constructor
    · rintro (((h | ⟨x, hxv, hxr, hxi⟩)) | ⟨x, hxv, hxr, hxi⟩)
      · exact Or.inl h
      · exact Or.inr ⟨x, by simp [hxv], hxr, hxi⟩
      · exact Or.inr ⟨x, by simp [hxv], hxr, hxi⟩
    · rintro (h | ⟨x, hxv, hxr, hxi⟩)
      · exact Or.inl (Or.inl h)
      · rw [List.mem_append] at hxv
        rcases hxv with hxv | hxv
        · exact Or.inl (Or.inr ⟨x, hxv, hxr, hxi⟩)
        · exact Or.inr ⟨x, hxv, hxr, hxi⟩

end

/-! ## Claim theorem: the explain walk -/

/-- C4: starting from an all-false vector, the walk marks as nullable
exactly those root-output column names that occur in the output list of some
visited node whose join type is Full or whose parent relationship is Inner,
where — per `visitedOutputs` — the visited nodes are the root plus,
recursively, the children of visited nodes whose join type is Left or Right,
and the children of any other node are never visited. -/
theorem explain_walk_spec (plan : PlanNode) (root_outputs : List String)
    (c : String) :
    (∃ i : Nat,
      (visitPlan plan root_outputs
        (List.replicate root_outputs.length false))[i]? = some true
      ∧ root_outputs[i]? = some c)
    ↔ c ∈ root_outputs ∧ c ∈ visitedOutputs plan := by
  have hbase : ∀ j : Nat,
      ¬ ((List.replicate root_outputs.length false)[j]? = some true) := by
    intro j hj
    rw [List.getElem?_replicate] at hj
    by_cases hlt : j < root_outputs.length
    · rw [if_pos hlt] at hj
      cases hj
    · rw [if_neg hlt] at hj
      cases hj
  constructor
  · rintro ⟨i, hmark, hroot⟩
    have hchar := (getElem?_visitPlan plan root_outputs
      (List.replicate root_outputs.length false) i (by simp)).2
    rcases hchar.mp hmark with h | ⟨c2, hc2v, hc2r, hc2i⟩
    · exact absurd h (hbase i)
    · have : root_outputs[i]? = some c2 := by
        rw [← hc2i]
        exact getElem?_pyIndex hc2r
      rw [hroot] at this
      injection this with h2
      exact ⟨h2 ▸ hc2r, h2 ▸ hc2v⟩
  · rintro ⟨hcr, hcv⟩
    refine ⟨pyIndex root_outputs c, ?_, getElem?_pyIndex hcr⟩
    exact (getElem?_visitPlan plan root_outputs
      (List.replicate root_outputs.length false)
      (pyIndex root_outputs c) (by simp)).2.mpr
      (Or.inr ⟨c, hcv, hcr, rfl⟩)

/-! ## Claim theorems: pipeline control flow and the registry layer -/

/-- C7: with no declared result shape, once describe succeeds the pipeline
returns an empty error list, runs neither the catalog-lookup stage nor the
explain stage, and closes the prepared statement before returning (the trace
is exactly prepare-then-close). -/
theorem collect_errors_no_shape_spec (cols : Option (List RawCol))
    (catalog_outcome : Except FatalErr (List Nullable))
    (explain_outcome : Except FatalErr (List NullabilityOverride))
    (v : List UnresolvedColumn × List ColumnOrigin × List NullabilityOverride)
    (h : describeOutcome cols = .ok v) :
    (collect_errors_model cols none catalog_outcome explain_outcome).2 =
      .ok []
    ∧ DbEvent.catalogLookup ∉
        (collect_errors_model cols none catalog_outcome explain_outcome).1
    ∧ DbEvent.explainQuery ∉
        (collect_errors_model cols none catalog_outcome explain_outcome).1
    ∧ (collect_errors_model cols none catalog_outcome explain_outcome).1 =
        [.prepare, .closeStmt] := by
  obtain ⟨u, og, q⟩ := v
  have hmodel : collect_errors_model cols none catalog_outcome
      explain_outcome = ([.prepare, .closeStmt], .ok []) := by
    rw [collect_errors_model, h]
  rw [hmodel]
  refine ⟨rfl, ?_, ?_, rfl⟩
  · intro hmem
    simp at hmem
  · intro hmem
    simp at hmem

/-- Witness for C7: a one-column `int4` SELECT described successfully, with
no result shape declared. -/
theorem collect_errors_no_shape_spec_witness :
    describeOutcome (some [⟨"id", 23, 16384, 1⟩]) =
      .ok ([⟨"id", PyType.pyInt⟩], [⟨"id", 16384, 1⟩], [])
    ∧ (collect_errors_model (some [⟨"id", 23, 16384, 1⟩]) none
        (.ok []) (.ok [])).2 = .ok [] := by
  refine ⟨rfl, ?_⟩
  exact (collect_errors_no_shape_spec (some [⟨"id", 23, 16384, 1⟩])
    (.ok []) (.ok []) ([⟨"id", PyType.pyInt⟩], [⟨"id", 16384, 1⟩], [])
    rfl).1

/-- C8 is contradicted by the code: when `describe` raises
`UnsupportedTypeError` while mapping column OIDs (here OID 869, `inet`,
absent from `PG_TYPES`), the error propagates out of `collect_errors`
before the prepared-statement handle is bound, so the statement prepared by
the successful PREPARE is never closed — the trace contains the prepare but
no close. -/
theorem describe_unsupported_leak :
    collect_errors_model (some [⟨"val", 869, 0, 0⟩])
        (some (.scalar ⟨[PyType.pyStr]⟩)) (.ok []) (.ok []) =
      ([.prepare], .error (.unsupportedType 869 "val"))
    ∧ DbEvent.closeStmt ∉
        (collect_errors_model (some [⟨"val", 869, 0, 0⟩])
          (some (.scalar ⟨[PyType.pyStr]⟩)) (.ok []) (.ok [])).1 := by
  have h1 : collect_errors_model (some [⟨"val", 869, 0, 0⟩])
      (some (.scalar ⟨[PyType.pyStr]⟩)) (.ok []) (.ok []) =
      ([.prepare], .error (.unsupportedType 869 "val")) := rfl
  refine ⟨h1, ?_⟩
  rw [h1]
  intro hmem
  simp at hmem

/-- C9 as stated is false: with a two-error list, the registry layer logs
only one warning before raising, so the second error of the per-query list
is never logged. -/
theorem validate_logs_counterexample :
    ¬ (∀ e ∈ ([.nullabilityError "a", .columnNotFound "b"] :
          List ValidationError),
        LogEvent.warn "q" e ∈
          (validate_query_errors "q" "SELECT 1"
            [.nullabilityError "a", .columnNotFound "b"]).1) := by
  intro h
  have hb := h (.columnNotFound "b") (by simp)
  simp [validate_query_errors] at hb

/-- C9 amended: on a non-empty error list the registry layer logs exactly
the first error and raises it with the producing function's name and the
rendered SQL attached (later errors are neither logged nor raised); and the
low-level pipeline returns its validation-error list through the success
channel — it never raises a validation error — whenever its stages
complete. -/
theorem validate_raises_first_spec :
    (∀ (fnName sql : String) (e : ValidationError)
        (rest : List ValidationError),
      validate_query_errors fnName sql (e :: rest) =
        ([.warn fnName e], some ⟨e, fnName, sql⟩))
    ∧ (∀ (cs : List RawCol) (shape : ExpectedShape)
        (u : List UnresolvedColumn) (og : List ColumnOrigin)
        (q : List NullabilityOverride) (cat : List Nullable)
        (ex : List NullabilityOverride) (res : List ResolvedColumn),
        describeLoop cs = .ok (u, og, q) →
        resolve u cat ex q = .ok res →
        ∃ l, (collect_errors_model (some cs) (some shape)
          (.ok cat) (.ok ex)).2 = Except.ok l) := by
  constructor
  · intro fnName sql e rest
    rfl
  · intro cs shape u og q cat ex res hd hr
    have hdo : describeOutcome (some cs) = .ok (u, og, q) := hd
    rw [collect_errors_model, hdo]
    simp only [hr]
    cases shape with
    | scalar expected => exact ⟨_, rfl⟩
    | record expected => exact ⟨_, rfl⟩

/-- Witness for C9's amended statement: a concrete successful pipeline run
whose non-empty validation-error list is returned, not raised, and whose
first error is the one logged and raised by the registry layer. -/
theorem validate_raises_first_spec_witness :
    describeLoop [⟨"id", 23, 16384, 1⟩] =
      .ok ([⟨"id", PyType.pyInt⟩], [⟨"id", 16384, 1⟩], [])
    ∧ resolve [⟨"id", PyType.pyInt⟩] [⟨"id", true⟩] [] [] =
        .ok [⟨"id", PyType.pyInt, true⟩]
    ∧ (∃ l, (collect_errors_model (some [⟨"id", 23, 16384, 1⟩])
        (some (.scalar ⟨[PyType.pyStr]⟩)) (.ok [⟨"id", true⟩])
        (.ok [])).2 = Except.ok l)
    ∧ validate_query_errors "q" "SELECT id"
        [.columnNotFound "x", .nullabilityError "y"] =
      ([.warn "q" (.columnNotFound "x")],
        some ⟨.columnNotFound "x", "q", "SELECT id"⟩) := by
  refine ⟨rfl, rfl, ?_, ?_⟩
  · exact validate_raises_first_spec.2 [⟨"id", 23, 16384, 1⟩]
      (.scalar ⟨[PyType.pyStr]⟩) [⟨"id", PyType.pyInt⟩] [⟨"id", 16384, 1⟩]
      [] [⟨"id", true⟩] [] [⟨"id", PyType.pyInt, true⟩] rfl rfl
  · exact validate_raises_first_spec.1 "q" "SELECT id"
      (.columnNotFound "x") [.nullabilityError "y"]

end FearOfSql
